import Mathlib

/-!
ecs-kudos-api: the kudos service and its HTTP handlers.

A shallow embedding of `pkg/kudos.go` (the `Kudo` record, `KudosService.CreateKudo`,
`KudosService.GetKudos`) and of `pkg/main.go` (`CreateContribution`, `GetKudosForUser`),
followed by the properties of the record mapping, of the responses and of the
marshal / unmarshal round trip.

The Go code is effectful; here every effect is explicit state:
* the DynamoDB table reached through the SDK client is a value of type `DynamoDB`;
* the `http.ResponseWriter` is a value of type `ResponseWriter`;
* the variables whose address `GetKudos` stores in its result live in a `Heap`.

The packages the program imports (`go-github`, `aws-sdk-go`, `net/http`, `strconv`,
`time`, `encoding/json`) are not part of the repository.  What they compute from a
request or from the outside world (signature validation, webhook parsing, session
creation, RFC 3339 parsing, the JSON text of one record) is a parameter; the small
pure parts the program relies on (nil-safe getters, the `unixtime` attribute encoding,
decimal formatting, the response writer) are written out.  `GetKudos` and `CreateKudo`
take the SDK's marshalling function as an argument, so what is proved about them holds
for whatever that function does.
-/

namespace Kudos

/-! ## Go values -/

/-- A Go `error` value, represented by a text that identifies it (for a library error
the text of its cause, without the wrapping a caller adds); the `nil` error is
`none : Option Error`. -/
abbrev Error := String

deriving instance DecidableEq for Except

/-- A Go slice: `none` is the nil slice, `some xs` a non-nil slice with elements `xs`. -/
abbrev Slice (α : Type) := Option (List α)

/-- Go `append(s, x)`: appending to the nil slice allocates a one-element slice. -/
def Slice.append {α : Type} (s : Slice α) (x : α) : Slice α :=
  match s with
  | none => some [x]
  | some xs => some (xs ++ [x])

/-- The elements of a slice; the nil slice has none. -/
def Slice.toList {α : Type} (s : Slice α) : List α :=
  match s with
  | none => []
  | some xs => xs

/-- Go `len(s)`. -/
def Slice.len {α : Type} (s : Slice α) : Nat := s.toList.length

/-- A Go `int64` result: the representative of `i` in `[-2^63, 2^63)`. -/
def int64 (i : Int) : Int := Int.bmod i (2 ^ 64)

/-! ## `time` -/

/-- A `time.Time`, as the instant it denotes: whole seconds since the Unix epoch and
the nanoseconds within that second (`0 ≤ nsec < 10^9` in Go).  The location and the
monotonic clock reading, which do not change the instant, are left out. -/
structure time.Time where
  sec : Int
  nsec : Nat
deriving DecidableEq, Repr

namespace time

/-- The zero value `time.Time{}`: January 1, year 1, 00:00:00 UTC. -/
def Time.zero : Time := { sec := -62135596800, nsec := 0 }

instance : Inhabited Time := ⟨Time.zero⟩

/-- Method `t.Unix()`: the seconds since the epoch as an `int64`, nanoseconds dropped. -/
def Time.Unix (t : Time) : Int := int64 t.sec

/-- Function `time.Unix(sec, 0)`, the only form the SDK decoder calls. -/
def Unix (sec : Int) : Time := { sec := sec, nsec := 0 }

end time

/-! ## `strconv` on base-10 `int64` text -/

namespace strconv

/-- The ASCII digit for `d < 10`. -/
def digitChar (d : Nat) : Char := Char.ofNat (48 + d)

/-- Writes the decimal digits of `n` in front of `acc`; `fuel` bounds the number of
digits produced. -/
def formatBits : Nat → Nat → List Char → List Char
  | 0, _, acc => acc
  | fuel + 1, n, acc =>
    if n < 10 then digitChar n :: acc
    else formatBits fuel (n / 10) (digitChar (n % 10) :: acc)

/-- Decimal digits of a natural number, most significant first. -/
def formatUint (n : Nat) : List Char := formatBits (n + 1) n []

/-- `strconv.FormatInt(i, 10)`. -/
def FormatInt (i : Int) : String :=
  if i < 0 then String.mk ('-' :: formatUint (-i).toNat) else String.mk (formatUint i.toNat)

/-- The digit loop of `strconv.ParseUint(s, 10, 64)` without its range check:
`none` on a byte that is not a decimal digit. -/
def parseDigits : List Char → Nat → Option Nat
  | [], acc => some acc
  | c :: cs, acc =>
    if 48 ≤ c.toNat ∧ c.toNat ≤ 57 then parseDigits cs (acc * 10 + (c.toNat - 48)) else none

/-- `strconv.ParseUint(s, 10, 64)` on the bytes after the sign: a syntax error on the
empty string or a non-digit, a range error above `2^64 - 1`. -/
def ParseUint (s : List Char) : Except Error Nat :=
  match s with
  | [] => .error "invalid syntax"
  | _ =>
    match parseDigits s 0 with
    | none => .error "invalid syntax"
    | some n => if n < 2 ^ 64 then .ok n else .error "value out of range"

/-- `strconv.ParseInt(s, 10, 64)`: an optional sign followed by one or more decimal
digits, with the result in the `int64` range. -/
def ParseInt (s : String) : Except Error Int :=
  match s.data with
  | [] => .error "invalid syntax"
  | c :: cs =>
    let neg : Bool := decide (c = '-')
    let digits := if c = '+' ∨ c = '-' then cs else c :: cs
    match ParseUint digits with
    | .error e => .error e
    | .ok un =>
      if neg = false ∧ 2 ^ 63 ≤ un then .error "value out of range"
      else if neg = true ∧ 2 ^ 63 < un then .error "value out of range"
      else if neg then .ok (-(Int.ofNat un)) else .ok (Int.ofNat un)

end strconv

/-! ## `fmt` -/

/-- The `%s` verbs of a `fmt.Sprintf` format, filled from left to right. -/
def fmt.sprintfChars : List Char → List String → List Char
  | '%' :: 's' :: cs, a :: as => a.data ++ fmt.sprintfChars cs as
  | c :: cs, as => c :: fmt.sprintfChars cs as
  | [], _ => []

/-- `fmt.Sprintf(format, args...)` for formats whose only verb is `%s`. -/
def fmt.Sprintf (format : String) (args : List String) : String :=
  String.mk (fmt.sprintfChars format.data args)

/-! ## `go-github`: the event types and their nil-safe getters

Only the fields `CreateContribution` reads are kept.  A Go pointer field is an `Option`. -/

namespace github

structure User where
  Login : Option String
deriving DecidableEq, Repr

structure PullRequest where
  Title : Option String
  CreatedAt : Option time.Time
  User : Option User
  URL : Option String
deriving DecidableEq, Repr

structure Issue where
  Title : Option String
  User : Option User
  CreatedAt : Option time.Time
  URL : Option String
deriving DecidableEq, Repr

structure PullRequestEvent where
  Action : Option String
  PullRequest : Option PullRequest
deriving DecidableEq, Repr

structure IssuesEvent where
  Action : Option String
  Issue : Option Issue
deriving DecidableEq, Repr

/-- The value `github.ParseWebHook` returns: a pointer to one of the event structs.
`other` stands for every event type `CreateContribution` has no case for (`PushEvent`,
`ForkEvent`, ...), tagged with the name of its type. -/
inductive Event where
  | PullRequestEvent (e : github.PullRequestEvent)
  | IssuesEvent (e : github.IssuesEvent)
  | other (eventType : String)
deriving DecidableEq, Repr

/-- `func (u *User) GetLogin() string`. -/
def User.GetLogin : Option User → String
  | some { Login := some login } => login
  | _ => ""

/-- `func (p *PullRequest) GetUser() *User`. -/
def PullRequest.GetUser : Option PullRequest → Option github.User
  | some p => p.User
  | none => none

/-- `func (p *PullRequest) GetCreatedAt() time.Time`. -/
def PullRequest.GetCreatedAt : Option PullRequest → time.Time
  | some { CreatedAt := some t, .. } => t
  | _ => time.Time.zero

/-- `func (p *PullRequest) GetURL() string`. -/
def PullRequest.GetURL : Option PullRequest → String
  | some { URL := some url, .. } => url
  | _ => ""

/-- `func (p *PullRequest) GetTitle() string`. -/
def PullRequest.GetTitle : Option PullRequest → String
  | some { Title := some title, .. } => title
  | _ => ""

/-- `func (i *Issue) GetUser() *User`. -/
def Issue.GetUser : Option Issue → Option github.User
  | some i => i.User
  | none => none

/-- `func (i *Issue) GetCreatedAt() time.Time`. -/
def Issue.GetCreatedAt : Option Issue → time.Time
  | some { CreatedAt := some t, .. } => t
  | _ => time.Time.zero

/-- `func (i *Issue) GetURL() string`. -/
def Issue.GetURL : Option Issue → String
  | some { URL := some url, .. } => url
  | _ => ""

/-- `func (i *Issue) GetTitle() string`. -/
def Issue.GetTitle : Option Issue → String
  | some { Title := some title, .. } => title
  | _ => ""

/-- `func (p *PullRequestEvent) GetAction() string`, on the non-nil event of the switch. -/
def PullRequestEvent.GetAction (e : PullRequestEvent) : String :=
  match e.Action with
  | some a => a
  | none => ""

/-- `func (p *PullRequestEvent) GetPullRequest() *PullRequest`. -/
def PullRequestEvent.GetPullRequest (e : PullRequestEvent) : Option github.PullRequest :=
  e.PullRequest

/-- `func (i *IssuesEvent) GetAction() string`, on the non-nil event of the switch. -/
def IssuesEvent.GetAction (e : IssuesEvent) : String :=
  match e.Action with
  | some a => a
  | none => ""

/-- `func (i *IssuesEvent) GetIssue() *Issue`. -/
def IssuesEvent.GetIssue (e : IssuesEvent) : Option github.Issue := e.Issue

end github

/-! ## `pkg/kudos.go`: the record -/

/-- `KudosTableNamePrefix`: pattern for the DynamoDB table. -/
def KudosTableNamePrefix : String := "ecskudos-%s-%s"

/-- `type Kudo struct`: a user's kudo.  `Time` carries the tag `dynamodbav:",unixtime"`. -/
structure Kudo where
  User : String
  Time : time.Time
  ContributionType : String
  ContributionURL : String
  ContributionName : String
deriving DecidableEq, Repr

/-- The zero value of `Kudo`, what `var userKudo Kudo` declares. -/
def Kudo.zero : Kudo :=
  { User := "", Time := time.Time.zero, ContributionType := "", ContributionURL := "",
    ContributionName := "" }

instance : Inhabited Kudo := ⟨Kudo.zero⟩

/-! ## `aws-sdk-go`: `dynamodb` -/

namespace dynamodb

/-- A `dynamodb.AttributeValue` of one of the kinds this service writes: a string, a
number (transported as its decimal text) or the null marker.  Binary, boolean, set,
list and map attributes are left out. -/
inductive AttributeValue where
  | S (s : String)
  | N (n : String)
  | NULL
deriving DecidableEq, Repr

/-- The Go type `map[string]*dynamodb.AttributeValue`, as an association list. -/
abbrev Item := List (String × AttributeValue)

structure Condition where
  ComparisonOperator : String
  AttributeValueList : List AttributeValue
deriving DecidableEq, Repr

structure QueryInput where
  TableName : String
  KeyConditions : List (String × Condition)
deriving DecidableEq, Repr

structure QueryOutput where
  Items : List Item
deriving DecidableEq, Repr

structure PutItemInput where
  Item : Item
  TableName : String
deriving DecidableEq, Repr

/-- A request sent to the store. -/
inductive Request where
  | PutItem (input : PutItemInput)
  | Query (input : QueryInput)
deriving DecidableEq, Repr

/-- Modelled from the spec: the table behind the client, which the repository's Go
files use but do not declare.  It is one key-value table with partition key `User`
(string); the records of one user accumulate in it, in insertion order, and none is
ever updated, deleted or deduplicated.  `outage`, when set, is the error every remote
call fails with (network, permission, throttling); `requests` records every call the
client sent. -/
structure DynamoDB where
  tableName : String
  items : List Item
  outage : Option Error
  requests : List Request
deriving DecidableEq, Repr

/-- The partition key of an item: its `User` attribute when that is a non-empty
string, the only kind of value the table's key accepts. -/
def hashKey (item : Item) : Option String :=
  match item.lookup "User" with
  | some (.S u) => if u = "" then none else some u
  | _ => none

/-- Modelled from the spec: `PutItem` is an unconditional write, with no existence
check.  It fails on an outage, on an unknown table and on an item without a valid
partition key; otherwise the item is added after the items already stored, none of
which is replaced or removed. -/
def DynamoDB.PutItem (db : DynamoDB) (input : PutItemInput) : Except Error Unit × DynamoDB :=
  let db := { db with requests := db.requests ++ [Request.PutItem input] }
  match db.outage with
  | some e => (.error e, db)
  | none =>
    if input.TableName ≠ db.tableName then (.error "ResourceNotFoundException", db)
    else
      match hashKey input.Item with
      | none => (.error "ValidationException", db)
      | some _ => (.ok (), { db with items := db.items ++ [input.Item] })

/-- The value a key condition list asks the partition key to equal: the list must be
the single condition `User EQ v`. -/
def hashKeyCondition : List (String × Condition) → Option AttributeValue
  | [(name, { ComparisonOperator := op, AttributeValueList := [v] })] =>
    if name = "User" ∧ op = "EQ" then some v else none
  | _ => none

/-- Modelled from the spec: `Query` is an equality query against the partition key.
It fails on an outage, on an unknown table and on a condition that is not an equality
with a non-empty string; otherwise it returns the stored items with that `User`, in
the order the table holds them. -/
def DynamoDB.Query (db : DynamoDB) (input : QueryInput) : Except Error QueryOutput × DynamoDB :=
  let db := { db with requests := db.requests ++ [Request.Query input] }
  match db.outage with
  | some e => (.error e, db)
  | none =>
    if input.TableName ≠ db.tableName then (.error "ResourceNotFoundException", db)
    else
      match hashKeyCondition input.KeyConditions with
      | some (.S u) =>
        if u = "" then (.error "ValidationException", db)
        else (.ok { Items := db.items.filter (fun it => decide (hashKey it = some u)) }, db)
      | _ => (.error "ValidationException", db)

end dynamodb

open dynamodb (AttributeValue Item DynamoDB)

/-! ## `aws-sdk-go`: `dynamodbattribute` for the `Kudo` struct -/

namespace dynamodbattribute

/-- The encoder on a string field: the empty string becomes the null marker. -/
def encodeString (s : String) : AttributeValue :=
  if s = "" then .NULL else .S s

/-- The encoder on a `time.Time` field tagged `unixtime`: the number
`strconv.FormatInt(t.Unix(), 10)`. -/
def encodeUnixTime (t : time.Time) : AttributeValue :=
  .N (strconv.FormatInt t.Unix)

/-- `dynamodbattribute.MarshalMap` on a `*Kudo`: one attribute per field, named after
the field. -/
def MarshalMap (k : Kudo) : Except Error Item :=
  .ok [("User", encodeString k.User),
       ("Time", encodeUnixTime k.Time),
       ("ContributionType", encodeString k.ContributionType),
       ("ContributionURL", encodeString k.ContributionURL),
       ("ContributionName", encodeString k.ContributionName)]

/-- The decoder on a string field holding `cur`: an absent attribute leaves the field,
the null marker zeroes it, a string or the text of a number is stored. -/
def decodeString (av : Option AttributeValue) (cur : String) : Except Error String :=
  match av with
  | none => .ok cur
  | some .NULL => .ok ""
  | some (.S s) => .ok s
  | some (.N n) => .ok n

/-- The decoder on a `time.Time` field tagged `unixtime` holding `cur`: a number is
read with `strconv.ParseInt` and becomes `time.Unix(n, 0)`; a string is handed to
`time.Parse(time.RFC3339, s)`, here the parameter `parseTime`. -/
def decodeUnixTime (parseTime : String → Except Error time.Time)
    (av : Option AttributeValue) (cur : time.Time) : Except Error time.Time :=
  match av with
  | none => .ok cur
  | some .NULL => .ok time.Time.zero
  | some (.N n) =>
    match strconv.ParseInt n with
    | .ok v => .ok (time.Unix v)
    | .error e => .error e
  | some (.S s) => parseTime s

/-- `dynamodbattribute.UnmarshalMap(item, &out)` on a `*Kudo`: every attribute named
after a field is decoded into it; `out` is the record the pointer refers to on entry.
(The SDK visits the attributes in map order and also accepts a name that differs from
the field's in case only; here the fields are visited in declaration order and matched
by their exact names.) -/
def UnmarshalMap (parseTime : String → Except Error time.Time) (item : Item) (out : Kudo) :
    Except Error Kudo :=
  match decodeString (item.lookup "User") out.User with
  | .error e => .error e
  | .ok user =>
    match decodeUnixTime parseTime (item.lookup "Time") out.Time with
    | .error e => .error e
    | .ok t =>
      match decodeString (item.lookup "ContributionType") out.ContributionType with
      | .error e => .error e
      | .ok ty =>
        match decodeString (item.lookup "ContributionURL") out.ContributionURL with
        | .error e => .error e
        | .ok url =>
          match decodeString (item.lookup "ContributionName") out.ContributionName with
          | .error e => .error e
          | .ok name =>
            .ok { User := user, Time := t, ContributionType := ty, ContributionURL := url,
                  ContributionName := name }

end dynamodbattribute

/-! ## `net/http` -/

namespace http

def StatusOK : Nat := 200
def StatusCreated : Nat := 201
def StatusAccepted : Nat := 202
def StatusBadRequest : Nat := 400
def StatusUnauthorized : Nat := 401
def StatusInternalServerError : Nat := 500

/-- The part of an `*http.Request` the webhook library reads. -/
structure Request where
  Header : List (String × String)
  Body : String
deriving DecidableEq, Repr

/-- The state of an `http.ResponseWriter`: the header map, the status code of the
first `WriteHeader` (`none` while no header has been written) and the body written. -/
structure ResponseWriter where
  header : List (String × String) := []
  status : Option Nat := none
  body : String := ""
deriving DecidableEq, Repr

/-- `w.Header().Set(key, value)`. -/
def ResponseWriter.HeaderSet (w : ResponseWriter) (key value : String) : ResponseWriter :=
  { w with header := w.header.filter (fun kv => decide (kv.1 ≠ key)) ++ [(key, value)] }

/-- `w.Header().Del(key)`. -/
def ResponseWriter.HeaderDel (w : ResponseWriter) (key : String) : ResponseWriter :=
  { w with header := w.header.filter (fun kv => decide (kv.1 ≠ key)) }

/-- `w.WriteHeader(code)`: only the first call sets the status. -/
def ResponseWriter.WriteHeader (w : ResponseWriter) (code : Nat) : ResponseWriter :=
  match w.status with
  | some _ => w
  | none => { w with status := some code }

/-- `w.Write(b)`: writes the header with `StatusOK` if none was written, then the bytes. -/
def ResponseWriter.Write (w : ResponseWriter) (b : String) : ResponseWriter :=
  let w := w.WriteHeader StatusOK
  { w with body := w.body ++ b }

/-- `http.Error(w, error, code)`: a plain-text reply, the message followed by a newline. -/
def Error (w : ResponseWriter) (error : String) (code : Nat) : ResponseWriter :=
  let w := w.HeaderDel "Content-Length"
  let w := w.HeaderSet "Content-Type" "text/plain; charset=utf-8"
  let w := w.HeaderSet "X-Content-Type-Options" "nosniff"
  let w := w.WriteHeader code
  w.Write (error ++ "\n")

/-- The status code the server sends once the handler has returned: the one written,
or `StatusOK` when the handler wrote none. -/
def ResponseWriter.sentStatus (w : ResponseWriter) : Nat :=
  match w.status with
  | some code => code
  | none => StatusOK

end http

/-- `httprouter.Params.ByName`: the value of the first parameter of that name, or the
empty string. -/
def httprouter.ByName (ps : List (String × String)) (name : String) : String :=
  match ps.lookup name with
  | some v => v
  | none => ""

/-! ## The memory holding the records `GetKudos` returns pointers to -/

/-- A `*Kudo`: the index of a cell of the heap. -/
abbrev Ptr := Nat

/-- The `Kudo` variables allocated so far. -/
structure Heap where
  cells : List Kudo
deriving DecidableEq, Repr

/-- A new variable holding `v`; its address is returned. -/
def Heap.alloc (h : Heap) (v : Kudo) : Ptr × Heap :=
  (h.cells.length, { cells := h.cells ++ [v] })

/-- The record at address `p`. -/
def Heap.get (h : Heap) (p : Ptr) : Option Kudo := h.cells.get? p

/-- Stores `v` at address `p`. -/
def Heap.set (h : Heap) (p : Ptr) (v : Kudo) : Heap := { cells := h.cells.set p v }

/-! ## The environment of the handlers -/

/-- What the handlers obtain from outside the repository on one request. -/
structure Env where
  /-- The result of `session.NewSessionWithOptions(...)`: `session.Must` panics on an error. -/
  NewSessionWithOptions : Except Error Unit
  /-- The function `os.Getenv`. -/
  Getenv : String → String
  /-- The function `github.ValidatePayload(req, secretKey)`: the payload, or an error when the
  signature does not match. -/
  ValidatePayload : http.Request → String → Except Error String
  /-- The function `github.WebHookType(req)`. -/
  WebHookType : http.Request → String
  /-- The function `github.ParseWebHook(messageType, payload)`. -/
  ParseWebHook : String → String → Except Error github.Event
  /-- The function `dynamodbattribute.MarshalMap` on a `*Kudo`. -/
  MarshalMap : Kudo → Except Error Item
  /-- The function `dynamodbattribute.UnmarshalMap(item, &out)` on a `*Kudo`. -/
  UnmarshalMap : Item → Kudo → Except Error Kudo
  /-- What `encoding/json` produces for one `Kudo`. -/
  jsonKudo : Kudo → Except Error String

/-! ## `pkg/kudos.go`: the service -/

/-- `type KudosService struct`: represents Kudos for folks. -/
structure KudosService where
  dynamo : DynamoDB
  tableName : String
deriving DecidableEq, Repr

/-- `NewKudosService` returns a service for CRUD operations on kudos; `dynamo` is the
store `dynamodb.New(sess)` connects to. -/
def NewKudosService (dynamo : DynamoDB) : KudosService :=
  { dynamo := dynamo
    tableName := fmt.Sprintf KudosTableNamePrefix ["test", "kudos"] }

/-- `CreateKudo` saves a kudo in the DB.  Returns the Go `error` and the service with
the store as the call left it. -/
def KudosService.CreateKudo (MarshalMap : Kudo → Except Error Item) (s : KudosService)
    (request : Kudo) : Option Error × KudosService :=
  match MarshalMap request with
  | .error err => (some err, s)
  | .ok serialized =>
    let input : dynamodb.PutItemInput := { Item := serialized, TableName := s.tableName }
    match s.dynamo.PutItem input with
    | (.error err, dynamo) => (some err, { s with dynamo := dynamo })
    | (.ok _, dynamo) => (none, { s with dynamo := dynamo })

/-- What `GetKudos` leaves behind: the pair `([]*Kudo, error)` it returns, the heap
with the variables it allocated and the service with the store as the query left it. -/
structure GetKudosResult where
  kudos : Slice Ptr
  err : Option Error
  heap : Heap
  service : KudosService
deriving DecidableEq, Repr

/-- The body of `for _, item := range resp.Items` in `GetKudos`. -/
def KudosService.getKudosLoop (UnmarshalMap : Item → Kudo → Except Error Kudo) :
    List Item → Slice Ptr → Heap → Slice Ptr × Option Error × Heap
  | [], kudos, heap => (kudos, none, heap)
  | item :: items, kudos, heap =>
    -- var userKudo Kudo
    let (userKudo, heap) := heap.alloc Kudo.zero
    match UnmarshalMap item Kudo.zero with
    | .error err => (none, some err, heap)
    | .ok k =>
      KudosService.getKudosLoop UnmarshalMap items (kudos.append userKudo) (heap.set userKudo k)

/-- The `queryInput` of `GetKudos`: the key condition `User EQ user` on the service's table. -/
def KudosService.queryInput (s : KudosService) (user : String) : dynamodb.QueryInput :=
  { TableName := s.tableName
    KeyConditions :=
      [("User", { ComparisonOperator := "EQ", AttributeValueList := [AttributeValue.S user] })] }

/-- `GetKudos` fetches the kudos for a particular user. -/
def KudosService.GetKudos (UnmarshalMap : Item → Kudo → Except Error Kudo) (s : KudosService)
    (user : String) (heap : Heap) : GetKudosResult :=
  match s.dynamo.Query (s.queryInput user) with
  | (.error err, dynamo) =>
    { kudos := none, err := some err, heap := heap, service := { s with dynamo := dynamo } }
  | (.ok resp, dynamo) =>
    -- var kudos []*Kudo
    match KudosService.getKudosLoop UnmarshalMap resp.Items none heap with
    | (kudos, err, heap) =>
      { kudos := kudos, err := err, heap := heap, service := { s with dynamo := dynamo } }

/-! ## `pkg/main.go`: the handlers -/

/-- What a handler leaves behind: the response writer, the store, the lines it logged,
the records it handed to `CreateKudo`, and the panic value if it panicked. -/
structure Outcome where
  w : http.ResponseWriter
  dynamo : DynamoDB
  log : List String
  created : List Kudo
  panic : Option Error
deriving DecidableEq, Repr

/-- `CreateContribution` records a GH contribution. -/
def CreateContribution (env : Env) (dynamo : DynamoDB) (w : http.ResponseWriter)
    (req : http.Request) : Outcome :=
  match env.NewSessionWithOptions with
  | .error e => { w := w, dynamo := dynamo, log := [], created := [], panic := some e }
  | .ok _ =>
    let kudosService := NewKudosService dynamo
    match env.ValidatePayload req (env.Getenv "WEBHOOK-SECRET") with
    | .error err =>
      { w := http.Error w err http.StatusUnauthorized, dynamo := dynamo,
        log := [fmt.Sprintf "error validating request body: err=%s\n" [err]],
        created := [], panic := none }
    | .ok payload =>
      match env.ParseWebHook (env.WebHookType req) payload with
      | .error err =>
        { w := http.Error w err http.StatusBadRequest, dynamo := dynamo,
          log := [fmt.Sprintf "could not parse webhook: err=%s\n" [err]],
          created := [], panic := none }
      | .ok event =>
        match event with
        | .PullRequestEvent e =>
          if e.GetAction ≠ "opened" then
            { w := w.WriteHeader http.StatusAccepted, dynamo := dynamo, log := [],
              created := [], panic := none }
          else
            let req : Kudo :=
              { User := github.User.GetLogin (github.PullRequest.GetUser e.GetPullRequest)
                Time := github.PullRequest.GetCreatedAt e.GetPullRequest
                ContributionType := "PullRequest"
                ContributionURL := github.PullRequest.GetURL e.GetPullRequest
                ContributionName := github.PullRequest.GetTitle e.GetPullRequest }
            match kudosService.CreateKudo env.MarshalMap req with
            | (some err, s) =>
              { w := http.Error w err http.StatusInternalServerError, dynamo := s.dynamo,
                log := [fmt.Sprintf "🚨 could create kudo: err=%s\n" [err]],
                created := [req], panic := none }
            | (none, s) =>
              { w := w.WriteHeader http.StatusCreated, dynamo := s.dynamo, log := [],
                created := [req], panic := none }
        | .IssuesEvent e =>
          if e.GetAction ≠ "opened" then
            { w := w.WriteHeader http.StatusAccepted, dynamo := dynamo, log := [],
              created := [], panic := none }
          else
            let req : Kudo :=
              { User := github.User.GetLogin (github.Issue.GetUser e.GetIssue)
                Time := github.Issue.GetCreatedAt e.GetIssue
                ContributionType := "Issue"
                ContributionURL := github.Issue.GetURL e.GetIssue
                ContributionName := github.Issue.GetTitle e.GetIssue }
            match kudosService.CreateKudo env.MarshalMap req with
            | (some err, s) =>
              { w := http.Error w err http.StatusInternalServerError, dynamo := s.dynamo,
                log := [fmt.Sprintf "🚨 could create kudo: err=%s\n" [err]],
                created := [req], panic := none }
            | (none, s) =>
              { w := w.WriteHeader http.StatusCreated, dynamo := s.dynamo, log := [],
                created := [req], panic := none }
        | .other _ =>
          { w := w, dynamo := dynamo,
            log := [fmt.Sprintf "🤷‍♀️ event type %s\n" [env.WebHookType req]],
            created := [], panic := none }

/-- `json.Marshal(kudos)` on a `[]*Kudo`: `null` for the nil slice, otherwise the array
of the encoded records. -/
def json.Marshal (jsonKudo : Kudo → Except Error String) (heap : Heap) (kudos : Slice Ptr) :
    Except Error String :=
  match kudos with
  | none => .ok "null"
  | some ptrs =>
    match ptrs.mapM (fun p =>
        match heap.get p with
        | some k => jsonKudo k
        | none => .ok "null") with
    | .error e => .error e
    | .ok parts => .ok ("[" ++ ",".intercalate parts ++ "]")

/-- `GetKudosForUser` fetches the kudos for a particular user. -/
def GetKudosForUser (env : Env) (dynamo : DynamoDB) (heap : Heap) (w : http.ResponseWriter)
    (ps : List (String × String)) : Outcome :=
  let user := httprouter.ByName ps "user"
  match env.NewSessionWithOptions with
  | .error e => { w := w, dynamo := dynamo, log := [], created := [], panic := some e }
  | .ok _ =>
    let kudosService := NewKudosService dynamo
    let r := kudosService.GetKudos env.UnmarshalMap user heap
    match r.err with
    | some err =>
      { w := http.Error w err http.StatusInternalServerError, dynamo := r.service.dynamo,
        log := [fmt.Sprintf "🚨 could fetch kudos: err=%s\n" [err]],
        created := [], panic := none }
    | none =>
      -- serializedResponse, _ := json.Marshal(kudos): on an error the bytes are nil
      let serializedResponse :=
        match json.Marshal env.jsonKudo r.heap r.kudos with
        | .ok bytes => bytes
        | .error _ => ""
      let w := w.HeaderSet "Content-Type" "application/json"
      { w := w.Write serializedResponse, dynamo := r.service.dynamo, log := [],
        created := [], panic := none }

/-! ## Concrete requests, used to run the handlers -/

/-- An empty table under the name the service uses, with the store reachable. -/
def emptyTable : DynamoDB :=
  { tableName := "ecskudos-test-kudos", items := [], outage := none, requests := [] }

/-- A webhook delivery of the given event type. -/
def delivery (eventType : String) : http.Request :=
  { Header := [("X-GitHub-Event", eventType), ("X-Hub-Signature", "sha1=0f0f")]
    Body := "payload" }

/-- An environment in which the session is created, the signature check yields
`validated`, parsing yields `parsed`, and the SDK's attribute codec is the one written
out above.  No record is encoded to JSON in the runs below. -/
def envWith (validated : Except Error String) (parsed : Except Error github.Event) : Env :=
  { NewSessionWithOptions := .ok ()
    Getenv := fun _ => "s3cret"
    ValidatePayload := fun _ _ => validated
    WebHookType := fun req => httprouter.ByName req.Header "X-GitHub-Event"
    ParseWebHook := fun _ _ => parsed
    MarshalMap := dynamodbattribute.MarshalMap
    UnmarshalMap := dynamodbattribute.UnmarshalMap (fun _ => .error "parsing time")
    jsonKudo := fun _ => .error "json: unsupported value" }

/-- The environment `envWith validated parsed`, except that no session can be created:
`session.NewSessionWithOptions` returns an error. -/
def envNoSession (validated : Except Error String) (parsed : Except Error github.Event) : Env :=
  { envWith validated parsed with NewSessionWithOptions := .error "SharedConfigLoadError" }

/-- The example of the specification: alice opens pull request 5, "Fix bug". -/
def alicePullRequest : github.PullRequestEvent :=
  { Action := some "opened"
    PullRequest := some
      { Title := some "Fix bug"
        CreatedAt := some (time.Unix 1700000000)
        User := some { Login := some "alice" }
        URL := some "https://api.github.com/repos/o/r/pulls/5" } }

/-- The record alice's pull request is turned into. -/
def aliceKudo : Kudo :=
  { User := "alice", Time := time.Unix 1700000000, ContributionType := "PullRequest",
    ContributionURL := "https://api.github.com/repos/o/r/pulls/5",
    ContributionName := "Fix bug" }

/-- The item alice's record is stored as. -/
def aliceItem : Item :=
  [("User", .S "alice"), ("Time", .N "1700000000"), ("ContributionType", .S "PullRequest"),
   ("ContributionURL", .S "https://api.github.com/repos/o/r/pulls/5"),
   ("ContributionName", .S "Fix bug")]

/-- A second item under alice: an issue she opened later. -/
def aliceIssueItem : Item :=
  [("User", .S "alice"), ("Time", .N "1700000500"), ("ContributionType", .S "Issue"),
   ("ContributionURL", .S "https://api.github.com/repos/o/r/issues/9"),
   ("ContributionName", .S "Docs typo")]

/-- The record `aliceIssueItem` stands for. -/
def aliceIssueKudo : Kudo :=
  { User := "alice", Time := time.Unix 1700000500, ContributionType := "Issue",
    ContributionURL := "https://api.github.com/repos/o/r/issues/9",
    ContributionName := "Docs typo" }

/-- An item under alice whose `Time` is not the text of an integer. -/
def brokenItem : Item :=
  [("User", .S "alice"), ("Time", .N "soon"), ("ContributionType", .S "Issue")]

/-- A table that holds alice's pull request. -/
def aliceTable : DynamoDB :=
  { tableName := "ecskudos-test-kudos", items := [aliceItem], outage := none, requests := [] }

/-- A table whose query for alice returns two items. -/
def twoItemTable : DynamoDB :=
  { tableName := "ecskudos-test-kudos", items := [aliceItem, aliceIssueItem], outage := none,
    requests := [] }

/-- A table whose query for alice returns a good item, a broken one and another good
one. -/
def brokenTable : DynamoDB :=
  { tableName := "ecskudos-test-kudos", items := [aliceItem, brokenItem, aliceIssueItem],
    outage := none, requests := [] }

/-- A store no call reaches. -/
def unreachableTable : DynamoDB :=
  { tableName := "ecskudos-test-kudos", items := [aliceItem], outage := some "RequestError",
    requests := [] }

/-- The SDK decoder with a `time.Parse` that accepts no string. -/
def sdkUnmarshalMap : Item → Kudo → Except Error Kudo :=
  dynamodbattribute.UnmarshalMap (fun _ => .error "parsing time")

/-- Alice's record with a creation time half a second past the whole second. -/
def halfSecondKudo : Kudo :=
  { User := "alice", Time := { sec := 1700000000, nsec := 500000000 },
    ContributionType := "PullRequest",
    ContributionURL := "https://api.github.com/repos/o/r/pulls/5",
    ContributionName := "Fix bug" }

/-- An issue opened by bob. -/
def bobIssue : github.IssuesEvent :=
  { Action := some "opened"
    Issue := some
      { Title := some "Crash on start"
        User := some { Login := some "bob" }
        CreatedAt := some (time.Unix 1700000100)
        URL := some "https://api.github.com/repos/o/r/issues/7" } }

/-- An "opened" pull request event whose payload carries no pull request object. -/
def anonymousPullRequest : github.PullRequestEvent :=
  { Action := some "opened", PullRequest := none }

/-! ## Decimal text: parsing what was formatted -/

theorem strconv.digitChar_toNat (d : Nat) (h : d < 10) :
    (strconv.digitChar d).toNat = 48 + d := by
  interval_cases d <;> decide

theorem strconv.parseDigits_digitChar (d : Nat) (h : d < 10) (rest : List Char) (a : Nat) :
    strconv.parseDigits (strconv.digitChar d :: rest) a = strconv.parseDigits rest (a * 10 + d) := by
  have hd := strconv.digitChar_toNat d h
  simp only [strconv.parseDigits, hd]
  rw [if_pos (by omega)]
  congr 1
  omega

theorem strconv.parseDigits_formatBits (fuel : Nat) :
    ∀ n : Nat, n < fuel → ∃ k : Nat, ∀ (rest : List Char) (a : Nat),
      strconv.parseDigits (strconv.formatBits fuel n rest) a
        = strconv.parseDigits rest (a * 10 ^ k + n) := by
  induction fuel with
  | zero => intro n hn; omega
  | succ fuel ih =>
    intro n hn
    by_cases h10 : n < 10
    · refine ⟨1, fun rest a => ?_⟩
      simp only [strconv.formatBits, if_pos h10, pow_one]
      exact strconv.parseDigits_digitChar n h10 rest a
    · obtain ⟨k, hk⟩ := ih (n / 10) (by omega)
      refine ⟨k + 1, fun rest a => ?_⟩
      simp only [strconv.formatBits, if_neg h10]
      rw [hk, strconv.parseDigits_digitChar _ (Nat.mod_lt _ (by decide))]
      congr 1
      have := Nat.div_add_mod n 10
      rw [pow_succ]
      nlinarith [this]

theorem strconv.parseDigits_formatUint (n : Nat) :
    strconv.parseDigits (strconv.formatUint n) 0 = some n := by
  obtain ⟨k, hk⟩ := strconv.parseDigits_formatBits (n + 1) n (Nat.lt_succ_self n)
  have := hk [] 0
  simpa [strconv.formatUint, strconv.parseDigits] using this

theorem strconv.formatBits_head (fuel : Nat) :
    ∀ (n : Nat) (acc : List Char), ∃ (d : Nat) (tl : List Char),
      d < 10 ∧ strconv.formatBits (fuel + 1) n acc = strconv.digitChar d :: tl := by
  induction fuel with
  | zero =>
    intro n acc
    by_cases h10 : n < 10
    · exact ⟨n, acc, h10, by simp [strconv.formatBits, h10]⟩
    · exact ⟨n % 10, acc, Nat.mod_lt _ (by decide), by simp [strconv.formatBits, h10]⟩
  | succ fuel ih =>
    intro n acc
    by_cases h10 : n < 10
    · exact ⟨n, acc, h10, by simp [strconv.formatBits, h10]⟩
    · obtain ⟨d, tl, hd, h⟩ := ih (n / 10) (strconv.digitChar (n % 10) :: acc)
      refine ⟨d, tl, hd, ?_⟩
      rw [← h]
      conv_lhs => unfold strconv.formatBits
      simp [h10]

theorem strconv.digitChar_ne_sign (d : Nat) (h : d < 10) :
    strconv.digitChar d ≠ '+' ∧ strconv.digitChar d ≠ '-' := by
  interval_cases d <;> decide

theorem strconv.ParseUint_formatUint (n : Nat) (h : n < 2 ^ 64) :
    strconv.ParseUint (strconv.formatUint n) = .ok n := by
  obtain ⟨d, tl, _, hf⟩ := strconv.formatBits_head n n []
  have hp := strconv.parseDigits_formatUint n
  unfold strconv.formatUint at hp ⊢
  rw [hf] at hp ⊢
  simp only [strconv.ParseUint, hp]
  rw [if_pos h]

/-- Parsing the decimal text of an `int64` gives the number back. -/
theorem strconv.ParseInt_FormatInt (i : Int) (hlo : -(2 ^ 63) ≤ i) (hhi : i < 2 ^ 63) :
    strconv.ParseInt (strconv.FormatInt i) = .ok i := by
  by_cases hneg : i < 0
  · have hn : (-i).toNat < 2 ^ 64 := by omega
    have hu := strconv.ParseUint_formatUint (-i).toNat hn
    have hcast : (Int.ofNat (-i).toNat) = -i := Int.toNat_of_nonneg (by omega)
    simp only [strconv.FormatInt, if_pos hneg, strconv.ParseInt]
    simp only [true_or, or_true, if_true, hu, decide_True]
    rw [if_neg (by simp), if_neg (by omega)]
    simp only [if_true, hcast, neg_neg]
  · obtain ⟨d, tl, hd, hf⟩ := strconv.formatBits_head i.toNat i.toNat []
    have hn : i.toNat < 2 ^ 64 := by omega
    have hu := strconv.ParseUint_formatUint i.toNat hn
    have hcast : (Int.ofNat i.toNat) = i := Int.toNat_of_nonneg (by omega)
    obtain ⟨hplus, hminus⟩ := strconv.digitChar_ne_sign d hd
    unfold strconv.formatUint at hu
    simp only [strconv.FormatInt, if_neg hneg, strconv.ParseInt, strconv.formatUint]
    rw [hf] at hu ⊢
    simp only [hplus, hminus, or_self, if_false, hu, decide_False]
    rw [if_neg (by omega), if_neg (by simp)]
    simp only [Bool.false_eq_true, if_false, hcast]

/-! ## `CreateContribution`: the record handed to `CreateKudo` -/

/-- C1: for a `PullRequestEvent` whose action is "opened", reached after the payload
passed validation and parsing, `CreateContribution` hands `CreateKudo` exactly one
record: `ContributionType` is "PullRequest", `User` the login of the pull request's
user, `Time` its created-at timestamp, `ContributionURL` its URL and
`ContributionName` its title, each as the getter returns it; the store is left as that
single `CreateKudo` call leaves it. -/
theorem CreateContribution_pullRequest_opened (env : Env) (dynamo : DynamoDB)
    (w : http.ResponseWriter) (req : http.Request) (payload : String)
    (e : github.PullRequestEvent)
    (hs : env.NewSessionWithOptions = .ok ())
    (hv : env.ValidatePayload req (env.Getenv "WEBHOOK-SECRET") = .ok payload)
    (hp : env.ParseWebHook (env.WebHookType req) payload = .ok (.PullRequestEvent e))
    (ha : e.GetAction = "opened") :
    (CreateContribution env dynamo w req).created
        = [{ User := github.User.GetLogin (github.PullRequest.GetUser e.GetPullRequest)
             Time := github.PullRequest.GetCreatedAt e.GetPullRequest
             ContributionType := "PullRequest"
             ContributionURL := github.PullRequest.GetURL e.GetPullRequest
             ContributionName := github.PullRequest.GetTitle e.GetPullRequest }]
      ∧ (CreateContribution env dynamo w req).dynamo
        = ((NewKudosService dynamo).CreateKudo env.MarshalMap
            { User := github.User.GetLogin (github.PullRequest.GetUser e.GetPullRequest)
              Time := github.PullRequest.GetCreatedAt e.GetPullRequest
              ContributionType := "PullRequest"
              ContributionURL := github.PullRequest.GetURL e.GetPullRequest
              ContributionName := github.PullRequest.GetTitle e.GetPullRequest }).2.dynamo := by
  simp only [CreateContribution, hs, hv, hp, ha, ne_eq, not_true_eq_false, if_false]
  split <;> simp_all

/-- C1 at the example of the specification: alice's pull request 5 gives the record
(alice, 1700000000, PullRequest, .../pulls/5, Fix bug). -/
theorem CreateContribution_pullRequest_opened_witness :
    (CreateContribution (envWith (.ok "payload") (.ok (.PullRequestEvent alicePullRequest)))
        emptyTable {} (delivery "pull_request")).created
      = [{ User := "alice", Time := time.Unix 1700000000, ContributionType := "PullRequest",
           ContributionURL := "https://api.github.com/repos/o/r/pulls/5",
           ContributionName := "Fix bug" }] :=
  (CreateContribution_pullRequest_opened
    (envWith (.ok "payload") (.ok (.PullRequestEvent alicePullRequest)))
    emptyTable {} (delivery "pull_request") "payload" alicePullRequest rfl rfl rfl rfl).1

/-- C2: for an `IssuesEvent` whose action is "opened", reached after the payload passed
validation and parsing, `CreateContribution` hands `CreateKudo` exactly one record:
`ContributionType` is "Issue", `User` the login of the issue's user, `Time` its
created-at timestamp, `ContributionURL` its URL and `ContributionName` its title, each
as the getter returns it; the store is left as that single `CreateKudo` call leaves it. -/
theorem CreateContribution_issue_opened (env : Env) (dynamo : DynamoDB)
    (w : http.ResponseWriter) (req : http.Request) (payload : String)
    (e : github.IssuesEvent)
    (hs : env.NewSessionWithOptions = .ok ())
    (hv : env.ValidatePayload req (env.Getenv "WEBHOOK-SECRET") = .ok payload)
    (hp : env.ParseWebHook (env.WebHookType req) payload = .ok (.IssuesEvent e))
    (ha : e.GetAction = "opened") :
    (CreateContribution env dynamo w req).created
        = [{ User := github.User.GetLogin (github.Issue.GetUser e.GetIssue)
             Time := github.Issue.GetCreatedAt e.GetIssue
             ContributionType := "Issue"
             ContributionURL := github.Issue.GetURL e.GetIssue
             ContributionName := github.Issue.GetTitle e.GetIssue }]
      ∧ (CreateContribution env dynamo w req).dynamo
        = ((NewKudosService dynamo).CreateKudo env.MarshalMap
            { User := github.User.GetLogin (github.Issue.GetUser e.GetIssue)
              Time := github.Issue.GetCreatedAt e.GetIssue
              ContributionType := "Issue"
              ContributionURL := github.Issue.GetURL e.GetIssue
              ContributionName := github.Issue.GetTitle e.GetIssue }).2.dynamo := by
  simp only [CreateContribution, hs, hv, hp, ha, ne_eq, not_true_eq_false, if_false]
  split <;> simp_all

/-- C2 at a concrete delivery: bob's issue 7 gives the record
(bob, 1700000100, Issue, .../issues/7, Crash on start). -/
theorem CreateContribution_issue_opened_witness :
    (CreateContribution (envWith (.ok "payload") (.ok (.IssuesEvent bobIssue)))
        emptyTable {} (delivery "issues")).created
      = [{ User := "bob", Time := time.Unix 1700000100, ContributionType := "Issue",
           ContributionURL := "https://api.github.com/repos/o/r/issues/7",
           ContributionName := "Crash on start" }] :=
  (CreateContribution_issue_opened
    (envWith (.ok "payload") (.ok (.IssuesEvent bobIssue)))
    emptyTable {} (delivery "issues") "payload" bobIssue rfl rfl rfl rfl).1

/-! ## `CreateContribution`: the requests that write nothing -/

/-- C3: for a `PullRequestEvent` or an `IssuesEvent` whose action is any string other
than "opened" (a missing action reads as the empty string), `CreateContribution`
calls `CreateKudo` not at all, sends the store no request and leaves it unchanged, and
writes status 202 Accepted with nothing added to the body. -/
theorem CreateContribution_not_opened (env : Env) (dynamo : DynamoDB)
    (w : http.ResponseWriter) (req : http.Request) (payload : String) (event : github.Event)
    (hs : env.NewSessionWithOptions = .ok ())
    (hv : env.ValidatePayload req (env.Getenv "WEBHOOK-SECRET") = .ok payload)
    (hp : env.ParseWebHook (env.WebHookType req) payload = .ok event)
    (ha : (∃ e, event = .PullRequestEvent e ∧ e.GetAction ≠ "opened")
        ∨ (∃ e, event = .IssuesEvent e ∧ e.GetAction ≠ "opened"))
    (hw : w.status = none) :
    (CreateContribution env dynamo w req).created = []
      ∧ (CreateContribution env dynamo w req).dynamo = dynamo
      ∧ (CreateContribution env dynamo w req).w.status = some http.StatusAccepted
      ∧ (CreateContribution env dynamo w req).w.sentStatus = 202
      ∧ (CreateContribution env dynamo w req).w.body = w.body := by
  rcases ha with ⟨e, rfl, ha⟩ | ⟨e, rfl, ha⟩ <;>
    simp [CreateContribution, hs, hv, hp, ha, http.ResponseWriter.WriteHeader, hw,
      http.ResponseWriter.sentStatus, http.StatusAccepted]

/-- C3 at concrete deliveries: a pull request event with action "closed" and an issue
event with no action both get 202 and leave the empty table empty. -/
theorem CreateContribution_not_opened_witness :
    ((CreateContribution
        (envWith (.ok "payload") (.ok (.PullRequestEvent { alicePullRequest with Action := some "closed" })))
        emptyTable {} (delivery "pull_request")).w.status = some 202
      ∧ (CreateContribution
        (envWith (.ok "payload") (.ok (.PullRequestEvent { alicePullRequest with Action := some "closed" })))
        emptyTable {} (delivery "pull_request")).dynamo = emptyTable)
    ∧ ((CreateContribution
        (envWith (.ok "payload") (.ok (.IssuesEvent { bobIssue with Action := none })))
        emptyTable {} (delivery "issues")).w.status = some 202
      ∧ (CreateContribution
        (envWith (.ok "payload") (.ok (.IssuesEvent { bobIssue with Action := none })))
        emptyTable {} (delivery "issues")).dynamo = emptyTable) :=
  have h1 := CreateContribution_not_opened
    (envWith (.ok "payload") (.ok (.PullRequestEvent { alicePullRequest with Action := some "closed" })))
    emptyTable {} (delivery "pull_request") "payload" _ rfl rfl rfl
    (Or.inl ⟨_, rfl, by decide⟩) rfl
  have h2 := CreateContribution_not_opened
    (envWith (.ok "payload") (.ok (.IssuesEvent { bobIssue with Action := none })))
    emptyTable {} (delivery "issues") "payload" _ rfl rfl rfl
    (Or.inr ⟨_, rfl, by decide⟩) rfl
  ⟨⟨h1.2.2.1, h1.2.1⟩, ⟨h2.2.2.1, h2.2.1⟩⟩

/-- C4, as the code has it: for a successfully parsed event that is neither a
`PullRequestEvent` nor an `IssuesEvent`, `CreateContribution` only logs the event type:
it calls `CreateKudo` not at all, leaves the store unchanged and returns the response
writer untouched, with no status written and no body.  For a writer nothing was
written to, the status the server then sends is 200 OK. -/
theorem CreateContribution_other_event (env : Env) (dynamo : DynamoDB)
    (w : http.ResponseWriter) (req : http.Request) (payload : String) (eventType : String)
    (hs : env.NewSessionWithOptions = .ok ())
    (hv : env.ValidatePayload req (env.Getenv "WEBHOOK-SECRET") = .ok payload)
    (hp : env.ParseWebHook (env.WebHookType req) payload = .ok (.other eventType)) :
    (CreateContribution env dynamo w req).created = []
      ∧ (CreateContribution env dynamo w req).dynamo = dynamo
      ∧ (CreateContribution env dynamo w req).w = w
      ∧ (w.status = none →
          (CreateContribution env dynamo w req).w.status = none
          ∧ (CreateContribution env dynamo w req).w.sentStatus = http.StatusOK) := by
  simp only [CreateContribution, hs, hv, hp, true_and]
  intro hw
  simp [http.ResponseWriter.sentStatus, hw]

/-- C4 on a push event delivered to a fresh response writer: the writer stays empty
and the status sent is 200. -/
theorem CreateContribution_other_event_witness :
    (CreateContribution (envWith (.ok "payload") (.ok (.other "PushEvent")))
        emptyTable {} (delivery "push")).w = {}
      ∧ (CreateContribution (envWith (.ok "payload") (.ok (.other "PushEvent")))
        emptyTable {} (delivery "push")).w.sentStatus = 200 :=
  have h := CreateContribution_other_event
    (envWith (.ok "payload") (.ok (.other "PushEvent")))
    emptyTable {} (delivery "push") "payload" "PushEvent" rfl rfl rfl
  ⟨h.2.2.1, (h.2.2.2 rfl).2⟩

/-- C4 as stated fails: a valid push event, parsed successfully, is answered without
any status being written, so the response goes out with 200, not with 202. -/
theorem CreateContribution_other_event_not_202 :
    (envWith (.ok "payload") (.ok (.other "PushEvent"))).ParseWebHook
        ((envWith (.ok "payload") (.ok (.other "PushEvent"))).WebHookType (delivery "push"))
        "payload" = .ok (.other "PushEvent")
      ∧ (CreateContribution (envWith (.ok "payload") (.ok (.other "PushEvent")))
          emptyTable {} (delivery "push")).w.status ≠ some 202
      ∧ (CreateContribution (envWith (.ok "payload") (.ok (.other "PushEvent")))
          emptyTable {} (delivery "push")).w.sentStatus ≠ 202 := by
  decide

/-- C9, as the code has it: once the session has been created (`session.Must` did not
panic), a request whose signature validation fails is answered 401 with the error text
(followed by a newline) as body, and a request whose signature is valid but whose
payload cannot be parsed into an event is answered 400 with the error text.  In both
cases `CreateKudo` is not called and the store receives no request. -/
theorem CreateContribution_rejected (env : Env) (dynamo : DynamoDB)
    (w : http.ResponseWriter) (req : http.Request)
    (hs : env.NewSessionWithOptions = .ok ()) (hw : w.status = none) :
    (∀ err, env.ValidatePayload req (env.Getenv "WEBHOOK-SECRET") = .error err →
        (CreateContribution env dynamo w req).w.status = some http.StatusUnauthorized
        ∧ (CreateContribution env dynamo w req).w.sentStatus = 401
        ∧ (CreateContribution env dynamo w req).w.body = w.body ++ (err ++ "\n")
        ∧ (CreateContribution env dynamo w req).created = []
        ∧ (CreateContribution env dynamo w req).dynamo = dynamo)
    ∧ (∀ payload err, env.ValidatePayload req (env.Getenv "WEBHOOK-SECRET") = .ok payload →
        env.ParseWebHook (env.WebHookType req) payload = .error err →
        (CreateContribution env dynamo w req).w.status = some http.StatusBadRequest
        ∧ (CreateContribution env dynamo w req).w.sentStatus = 400
        ∧ (CreateContribution env dynamo w req).w.body = w.body ++ (err ++ "\n")
        ∧ (CreateContribution env dynamo w req).created = []
        ∧ (CreateContribution env dynamo w req).dynamo = dynamo) := by
  constructor
  · intro err hv
    simp [CreateContribution, hs, hv, http.Error, http.ResponseWriter.Write,
      http.ResponseWriter.WriteHeader, http.ResponseWriter.HeaderSet,
      http.ResponseWriter.HeaderDel, hw, http.ResponseWriter.sentStatus,
      http.StatusUnauthorized]
  · intro payload err hv hp
    simp [CreateContribution, hs, hv, hp, http.Error, http.ResponseWriter.Write,
      http.ResponseWriter.WriteHeader, http.ResponseWriter.HeaderSet,
      http.ResponseWriter.HeaderDel, hw, http.ResponseWriter.sentStatus,
      http.StatusBadRequest]

/-- C9 at concrete deliveries: a bad signature is answered 401 and an unparseable
payload 400, each with the library's message as body and the table left alone. -/
theorem CreateContribution_rejected_witness :
    ((CreateContribution
          (envWith (.error "payload signature check failed") (.ok (.PullRequestEvent alicePullRequest)))
          emptyTable {} (delivery "pull_request")).w.status = some 401
      ∧ (CreateContribution
          (envWith (.error "payload signature check failed") (.ok (.PullRequestEvent alicePullRequest)))
          emptyTable {} (delivery "pull_request")).w.body = "payload signature check failed\n"
      ∧ (CreateContribution
          (envWith (.error "payload signature check failed") (.ok (.PullRequestEvent alicePullRequest)))
          emptyTable {} (delivery "pull_request")).dynamo = emptyTable)
    ∧ ((CreateContribution (envWith (.ok "payload") (.error "unexpected end of JSON input"))
          emptyTable {} (delivery "pull_request")).w.status = some 400
      ∧ (CreateContribution (envWith (.ok "payload") (.error "unexpected end of JSON input"))
          emptyTable {} (delivery "pull_request")).w.body = "unexpected end of JSON input\n"
      ∧ (CreateContribution (envWith (.ok "payload") (.error "unexpected end of JSON input"))
          emptyTable {} (delivery "pull_request")).dynamo = emptyTable) :=
  have h1 := (CreateContribution_rejected
    (envWith (.error "payload signature check failed") (.ok (.PullRequestEvent alicePullRequest)))
    emptyTable {} (delivery "pull_request") rfl rfl).1 _ rfl
  have h2 := (CreateContribution_rejected
    (envWith (.ok "payload") (.error "unexpected end of JSON input"))
    emptyTable {} (delivery "pull_request") rfl rfl).2 _ _ rfl rfl
  ⟨⟨h1.1, h1.2.2.1, h1.2.2.2.2⟩, ⟨h2.1, h2.2.2.1, h2.2.2.2.2⟩⟩

/-- C9 as stated fails: the session is created before the signature is looked at, so
when `session.NewSessionWithOptions` fails the handler panics in `session.Must`; a
request with a bad signature then gets no 401 and one with an unparseable payload no
400: nothing at all is written to the response.  The store is not touched either. -/
theorem CreateContribution_rejected_needs_session :
    ((envNoSession (.error "payload signature check failed")
          (.ok (.PullRequestEvent alicePullRequest))).ValidatePayload (delivery "pull_request")
          ((envNoSession (.error "payload signature check failed")
            (.ok (.PullRequestEvent alicePullRequest))).Getenv "WEBHOOK-SECRET")
        = .error "payload signature check failed"
      ∧ (CreateContribution
          (envNoSession (.error "payload signature check failed")
            (.ok (.PullRequestEvent alicePullRequest)))
          emptyTable {} (delivery "pull_request")).w.status ≠ some 401
      ∧ (CreateContribution
          (envNoSession (.error "payload signature check failed")
            (.ok (.PullRequestEvent alicePullRequest)))
          emptyTable {} (delivery "pull_request")).w = {}
      ∧ (CreateContribution
          (envNoSession (.error "payload signature check failed")
            (.ok (.PullRequestEvent alicePullRequest)))
          emptyTable {} (delivery "pull_request")).panic = some "SharedConfigLoadError")
    ∧ ((envNoSession (.ok "payload") (.error "unexpected end of JSON input")).ParseWebHook
          ((envNoSession (.ok "payload") (.error "unexpected end of JSON input")).WebHookType
            (delivery "pull_request")) "payload"
        = .error "unexpected end of JSON input"
      ∧ (CreateContribution (envNoSession (.ok "payload") (.error "unexpected end of JSON input"))
          emptyTable {} (delivery "pull_request")).w.status ≠ some 400
      ∧ (CreateContribution (envNoSession (.ok "payload") (.error "unexpected end of JSON input"))
          emptyTable {} (delivery "pull_request")).w = {}
      ∧ (CreateContribution (envNoSession (.ok "payload") (.error "unexpected end of JSON input"))
          emptyTable {} (delivery "pull_request")).dynamo = emptyTable) := by
  decide

/-! ## `CreateContribution`: the `User` of the record -/

theorem github.GetLogin_ne_empty (u : Option github.User) :
    github.User.GetLogin u ≠ "" ↔
      ∃ x login, u = some x ∧ x.Login = some login ∧ login ≠ "" := by
  cases u with
  | none => simp [github.User.GetLogin]
  | some x =>
    obtain ⟨l⟩ := x
    cases l with
    | none => simp [github.User.GetLogin]
    | some login => simp [github.User.GetLogin]

/-- C8, as the code has it: every record `CreateContribution` hands to `CreateKudo`
comes from an "opened" pull request or issue event and has as `User` what `GetLogin`
returns for the pull request's / issue's user, with no check on it.  So `User` is
non-empty exactly when the payload carries a pull request / issue with a user whose
login is present and non-empty. -/
theorem CreateContribution_created_user (env : Env) (dynamo : DynamoDB)
    (w : http.ResponseWriter) (req : http.Request) (k : Kudo)
    (hk : k ∈ (CreateContribution env dynamo w req).created) :
    ∃ payload, env.ValidatePayload req (env.Getenv "WEBHOOK-SECRET") = .ok payload
      ∧ ((∃ e, env.ParseWebHook (env.WebHookType req) payload = .ok (.PullRequestEvent e)
            ∧ e.GetAction = "opened"
            ∧ k.User = github.User.GetLogin (github.PullRequest.GetUser e.GetPullRequest)
            ∧ (k.User ≠ "" ↔ ∃ pr u login, e.PullRequest = some pr ∧ pr.User = some u
                ∧ u.Login = some login ∧ login ≠ ""))
        ∨ (∃ e, env.ParseWebHook (env.WebHookType req) payload = .ok (.IssuesEvent e)
            ∧ e.GetAction = "opened"
            ∧ k.User = github.User.GetLogin (github.Issue.GetUser e.GetIssue)
            ∧ (k.User ≠ "" ↔ ∃ i u login, e.Issue = some i ∧ i.User = some u
                ∧ u.Login = some login ∧ login ≠ ""))) := by
  unfold CreateContribution at hk
  cases hs : env.NewSessionWithOptions with
  | error e => simp [hs] at hk
  | ok _ =>
    cases hv : env.ValidatePayload req (env.Getenv "WEBHOOK-SECRET") with
    | error err => simp [hs, hv] at hk
    | ok payload =>
      refine ⟨payload, rfl, ?_⟩
      cases hp : env.ParseWebHook (env.WebHookType req) payload with
      | error err => simp [hs, hv, hp] at hk
      | ok event =>
        cases event with
        | other t => simp [hs, hv, hp] at hk
        | PullRequestEvent e =>
          left
          refine ⟨e, rfl, ?_⟩
          by_cases ha : e.GetAction = "opened"
          · simp only [hs, hv, hp, ha, ne_eq, not_true_eq_false, if_false] at hk
            have hu : k.User
                = github.User.GetLogin (github.PullRequest.GetUser e.GetPullRequest) := by
              split at hk <;> simp at hk <;> rw [hk]
            refine ⟨ha, hu, ?_⟩
            rw [hu, github.GetLogin_ne_empty]
            constructor
            · rintro ⟨u, login, h1, h2, h3⟩
              cases hpr : e.PullRequest with
              | none =>
                simp [github.PullRequestEvent.GetPullRequest, hpr,
                  github.PullRequest.GetUser] at h1
              | some pr =>
                refine ⟨pr, u, login, rfl, ?_, h2, h3⟩
                simpa [github.PullRequestEvent.GetPullRequest, hpr,
                  github.PullRequest.GetUser] using h1
            · rintro ⟨pr, u, login, h1, h2, h3, h4⟩
              exact ⟨u, login, by
                simp [github.PullRequestEvent.GetPullRequest, h1, github.PullRequest.GetUser, h2],
                h3, h4⟩
          · simp [hs, hv, hp, ha] at hk
        | IssuesEvent e =>
          right
          refine ⟨e, rfl, ?_⟩
          by_cases ha : e.GetAction = "opened"
          · simp only [hs, hv, hp, ha, ne_eq, not_true_eq_false, if_false] at hk
            have hu : k.User = github.User.GetLogin (github.Issue.GetUser e.GetIssue) := by
              split at hk <;> simp at hk <;> rw [hk]
            refine ⟨ha, hu, ?_⟩
            rw [hu, github.GetLogin_ne_empty]
            constructor
            · rintro ⟨u, login, h1, h2, h3⟩
              cases hi : e.Issue with
              | none =>
                simp [github.IssuesEvent.GetIssue, hi, github.Issue.GetUser] at h1
              | some i =>
                refine ⟨i, u, login, rfl, ?_, h2, h3⟩
                simpa [github.IssuesEvent.GetIssue, hi, github.Issue.GetUser] using h1
            · rintro ⟨i, u, login, h1, h2, h3, h4⟩
              exact ⟨u, login, by
                simp [github.IssuesEvent.GetIssue, h1, github.Issue.GetUser, h2], h3, h4⟩
          · simp [hs, hv, hp, ha] at hk

/-- C8 on alice's pull request: the record handed over is hers, it stems from the
validated payload, and its `User` is the non-empty login "alice". -/
theorem CreateContribution_created_user_witness :
    aliceKudo ∈ (CreateContribution
          (envWith (.ok "payload") (.ok (.PullRequestEvent alicePullRequest)))
          emptyTable {} (delivery "pull_request")).created
      ∧ (∃ payload, (envWith (.ok "payload") (.ok (.PullRequestEvent alicePullRequest))).ValidatePayload
            (delivery "pull_request") "s3cret" = .ok payload)
      ∧ aliceKudo.User ≠ "" :=
  have h := CreateContribution_created_user
      (envWith (.ok "payload") (.ok (.PullRequestEvent alicePullRequest)))
      emptyTable {} (delivery "pull_request") aliceKudo (by decide)
  ⟨by decide, h.imp (fun _ hp => hp.1), by decide⟩

/-- C8 as stated fails: an "opened" pull request event without a pull request object
makes `CreateContribution` hand `CreateKudo` a record whose `User` is empty. -/
theorem CreateContribution_passes_empty_user :
    (CreateContribution (envWith (.ok "payload") (.ok (.PullRequestEvent anonymousPullRequest)))
        emptyTable {} (delivery "pull_request")).created
      = [{ User := "", Time := time.Time.zero, ContributionType := "PullRequest",
           ContributionURL := "", ContributionName := "" }]
    ∧ (∃ k, k ∈ (CreateContribution
          (envWith (.ok "payload") (.ok (.PullRequestEvent anonymousPullRequest)))
          emptyTable {} (delivery "pull_request")).created ∧ k.User = "") := by
  refine ⟨by decide, ⟨{ Kudo.zero with ContributionType := "PullRequest" }, by decide, rfl⟩⟩

/-! ## `GetKudos`: the loop over the returned items -/

theorem Heap.set_alloc (heap : Heap) (k : Kudo) :
    (heap.alloc Kudo.zero).2.set (heap.alloc Kudo.zero).1 k = { cells := heap.cells ++ [k] } := by
  simp [Heap.alloc, Heap.set]

theorem Slice.append_eq {α : Type} (s : Slice α) (x : α) :
    s.append x = some (s.toList ++ [x]) := by
  cases s <;> rfl

/-- When every item deserializes, the loop allocates one variable per item, in order,
fills it with the item's record and appends its address. -/
theorem KudosService.getKudosLoop_ok (U : Item → Kudo → Except Error Kudo) :
    ∀ (items : List Item) (ks : List Kudo) (kudos : Slice Ptr) (heap : Heap),
      List.Forall₂ (fun item k => U item Kudo.zero = .ok k) items ks →
      KudosService.getKudosLoop U items kudos heap
        = (if items = [] then kudos
            else some (kudos.toList ++ List.range' heap.cells.length items.length),
           none, { cells := heap.cells ++ ks }) := by
  intro items
  induction items with
  | nil =>
    intro ks kudos heap h
    cases h
    simp [KudosService.getKudosLoop]
  | cons item rest ih =>
    intro ks kudos heap h
    cases h with
    | cons hk hrest =>
      rename_i k ks'
      have hset := Heap.set_alloc heap k
      simp only [Heap.alloc] at hset
      simp only [KudosService.getKudosLoop, Heap.alloc, hk, hset]
      rw [ih ks' _ _ hrest]
      simp only [Slice.append_eq, Slice.toList, List.length_append, List.length_singleton,
        List.append_assoc, List.singleton_append, List.length_cons, reduceCtorEq, if_false]
      by_cases hr : rest = []
      · subst hr
        simp [List.range']
      · simp [hr, List.range'_succ]

/-- At the first item that does not deserialize the loop returns the nil slice and that
item's error, whatever was collected from the items before it. -/
theorem KudosService.getKudosLoop_error (U : Item → Kudo → Except Error Kudo) :
    ∀ (pre : List Item) (item : Item) (post : List Item) (e : Error) (kudos : Slice Ptr)
      (heap : Heap),
      (∀ x ∈ pre, ∃ k, U x Kudo.zero = .ok k) → U item Kudo.zero = .error e →
      (KudosService.getKudosLoop U (pre ++ item :: post) kudos heap).1 = none
        ∧ (KudosService.getKudosLoop U (pre ++ item :: post) kudos heap).2.1 = some e := by
  intro pre
  induction pre with
  | nil =>
    intro item post e kudos heap _ he
    simp [KudosService.getKudosLoop, he]
  | cons x pre ih =>
    intro item post e kudos heap hpre he
    obtain ⟨k, hk⟩ := hpre x (List.mem_cons_self _ _)
    simp only [List.cons_append, KudosService.getKudosLoop, hk]
    exact ih item post e _ _ (fun y hy => hpre y (List.mem_cons_of_mem _ hy)) he

/-- Either every item deserializes, or there is a first one that does not. -/
theorem KudosService.items_split (U : Item → Kudo → Except Error Kudo) (items : List Item) :
    (∃ ks, List.Forall₂ (fun item k => U item Kudo.zero = .ok k) items ks)
      ∨ (∃ pre item post e, items = pre ++ item :: post
          ∧ (∀ x ∈ pre, ∃ k, U x Kudo.zero = .ok k) ∧ U item Kudo.zero = .error e) := by
  induction items with
  | nil => exact Or.inl ⟨[], List.Forall₂.nil⟩
  | cons item rest ih =>
    cases h : U item Kudo.zero with
    | error e => exact Or.inr ⟨[], item, rest, e, rfl, by simp, h⟩
    | ok k =>
      rcases ih with ⟨ks, hks⟩ | ⟨pre, it, post, e, hsplit, hpre, he⟩
      · exact Or.inl ⟨k :: ks, List.Forall₂.cons h hks⟩
      · refine Or.inr ⟨item :: pre, it, post, e, by simp [hsplit], ?_, he⟩
        intro x hx
        rcases List.mem_cons.mp hx with rfl | hx
        · exact ⟨k, h⟩
        · exact hpre x hx

theorem KudosService.forall₂_of_all_ok (U : Item → Kudo → Except Error Kudo) (items : List Item)
    (h : ∀ item ∈ items, ∃ k, U item Kudo.zero = .ok k) :
    ∃ ks, List.Forall₂ (fun item k => U item Kudo.zero = .ok k) items ks := by
  rcases KudosService.items_split U items with hks | ⟨pre, it, post, e, hsplit, _, he⟩
  · exact hks
  · obtain ⟨k, hk⟩ := h it (by simp [hsplit])
    rw [hk] at he
    cases he

theorem KudosService.forall₂_all_ok (U : Item → Kudo → Except Error Kudo) :
    ∀ (items : List Item) (ks : List Kudo),
      List.Forall₂ (fun item k => U item Kudo.zero = .ok k) items ks →
      ∀ item ∈ items, ∃ k, U item Kudo.zero = .ok k := by
  intro items ks h
  induction h with
  | nil => simp
  | cons hk _ ih =>
    intro item hitem
    rcases List.mem_cons.mp hitem with rfl | hitem
    · exact ⟨_, hk⟩
    · exact ih item hitem

/-- The pointers `GetKudos` returns when every item deserializes, and the heap it
leaves: one new variable per item, in the order of the items. -/
theorem KudosService.GetKudos_ok (U : Item → Kudo → Except Error Kudo) (s : KudosService)
    (user : String) (heap : Heap) (resp : dynamodb.QueryOutput) (dynamo' : DynamoDB)
    (ks : List Kudo)
    (hq : s.dynamo.Query (s.queryInput user) = (.ok resp, dynamo'))
    (hks : List.Forall₂ (fun item k => U item Kudo.zero = .ok k) resp.Items ks) :
    (s.GetKudos U user heap).err = none
      ∧ (s.GetKudos U user heap).kudos.toList
          = List.range' heap.cells.length resp.Items.length
      ∧ (s.GetKudos U user heap).heap = { cells := heap.cells ++ ks }
      ∧ ((s.GetKudos U user heap).kudos = none ↔ resp.Items = []) := by
  simp only [KudosService.GetKudos, hq, KudosService.getKudosLoop_ok U _ ks none heap hks]
  by_cases hi : resp.Items = []
  · simp [hi, Slice.toList]
  · simp [hi, Slice.toList]

/-- After a successful query `GetKudos` returns no error exactly when every returned
item deserializes. -/
theorem KudosService.GetKudos_err_none_iff (U : Item → Kudo → Except Error Kudo)
    (s : KudosService) (user : String) (heap : Heap) (resp : dynamodb.QueryOutput)
    (dynamo' : DynamoDB) (hq : s.dynamo.Query (s.queryInput user) = (.ok resp, dynamo')) :
    (s.GetKudos U user heap).err = none ↔ ∀ item ∈ resp.Items, ∃ k, U item Kudo.zero = .ok k := by
  rcases KudosService.items_split U resp.Items with ⟨ks, hks⟩ | ⟨pre, it, post, e, hsplit, hpre, he⟩
  · have hok := KudosService.GetKudos_ok U s user heap resp dynamo' ks hq hks
    exact ⟨fun _ => KudosService.forall₂_all_ok U _ _ hks, fun _ => hok.1⟩
  · have hloop := KudosService.getKudosLoop_error U pre it post e none heap hpre he
    have herr : (s.GetKudos U user heap).err = some e := by
      simp only [KudosService.GetKudos, hq, hsplit]
      exact hloop.2
    constructor
    · intro h
      rw [herr] at h
      cases h
    · intro h
      obtain ⟨k, hk⟩ := h it (by simp [hsplit])
      rw [hk] at he
      cases he

/-! ## `GetKudos`: errors, completeness and order -/

/-- C7: `GetKudos` returns an error if and only if the store query fails or at least
one returned item fails to deserialize.  Whenever it returns an error the slice it
returns is nil, and the error is the underlying one, unchanged: the query's error, or
the error of the first item that fails, even when the items before it deserialized. -/
theorem GetKudos_error_iff (U : Item → Kudo → Except Error Kudo) (s : KudosService)
    (user : String) (heap : Heap) :
    ((s.GetKudos U user heap).err ≠ none ↔
        (∃ e, (s.dynamo.Query (s.queryInput user)).1 = .error e)
        ∨ (∃ resp, (s.dynamo.Query (s.queryInput user)).1 = .ok resp
            ∧ ∃ item ∈ resp.Items, ∃ e, U item Kudo.zero = .error e))
    ∧ (∀ e, (s.GetKudos U user heap).err = some e →
        (s.GetKudos U user heap).kudos = none
        ∧ ((s.dynamo.Query (s.queryInput user)).1 = .error e
          ∨ ∃ resp pre item post, (s.dynamo.Query (s.queryInput user)).1 = .ok resp
              ∧ resp.Items = pre ++ item :: post
              ∧ (∀ x ∈ pre, ∃ k, U x Kudo.zero = .ok k)
              ∧ U item Kudo.zero = .error e)) := by
  rcases hq : s.dynamo.Query (s.queryInput user) with ⟨res, dynamo'⟩
  cases res with
  | error err =>
    simp [KudosService.GetKudos, hq]
  | ok resp =>
    rcases KudosService.items_split U resp.Items with ⟨ks, hks⟩ | ⟨pre, it, post, e, hsplit, hpre, he⟩
    · have hok := KudosService.GetKudos_ok U s user heap resp dynamo' ks hq hks
      have hall := KudosService.forall₂_all_ok U _ _ hks
      constructor
      · rw [hok.1]
        simp only [ne_eq, not_true_eq_false, reduceCtorEq, exists_false, false_or, false_iff]
        rintro ⟨resp', hresp', item, hitem, e, he⟩
        cases hresp'
        obtain ⟨k, hk⟩ := hall item hitem
        rw [hk] at he
        cases he
      · intro e he
        rw [hok.1] at he
        cases he
    · have hloop := KudosService.getKudosLoop_error U pre it post e none heap hpre he
      have herr : (s.GetKudos U user heap).err = some e := by
        simp only [KudosService.GetKudos, hq, hsplit]
        exact hloop.2
      have hnil : (s.GetKudos U user heap).kudos = none := by
        simp only [KudosService.GetKudos, hq, hsplit]
        exact hloop.1
      constructor
      · rw [herr]
        simp only [ne_eq, reduceCtorEq, not_false_eq_true, exists_false, false_or, true_iff]
        exact ⟨resp, rfl, it, by simp [hsplit], e, he⟩
      · intro e' he'
        rw [herr] at he'
        cases he'
        exact ⟨hnil, Or.inr ⟨resp, pre, it, post, rfl, hsplit, hpre, he⟩⟩

/-- C10: when the store query succeeds and every returned item deserializes,
`GetKudos` returns no error and a slice as long as the item list; its i-th element
points to the record the i-th item deserializes to, so no item is dropped, duplicated
or reordered; and the elements are pairwise distinct pointers to variables allocated
by this call, none an alias of another. -/
theorem GetKudos_all_items (U : Item → Kudo → Except Error Kudo) (s : KudosService)
    (user : String) (heap : Heap) (resp : dynamodb.QueryOutput) (dynamo' : DynamoDB)
    (hq : s.dynamo.Query (s.queryInput user) = (.ok resp, dynamo'))
    (hall : ∀ item ∈ resp.Items, ∃ k, U item Kudo.zero = .ok k) :
    (s.GetKudos U user heap).err = none
      ∧ (s.GetKudos U user heap).kudos.len = resp.Items.length
      ∧ (∀ (i : Nat) (hi : i < resp.Items.length), ∃ p k,
          (s.GetKudos U user heap).kudos.toList.get? i = some p
            ∧ (s.GetKudos U user heap).heap.get p = some k
            ∧ U (resp.Items.get ⟨i, hi⟩) Kudo.zero = .ok k)
      ∧ (s.GetKudos U user heap).kudos.toList.Nodup
      ∧ (∀ p ∈ (s.GetKudos U user heap).kudos.toList, heap.cells.length ≤ p) := by
  obtain ⟨ks, hks⟩ := KudosService.forall₂_of_all_ok U resp.Items hall
  obtain ⟨herr, hptrs, hheap, _⟩ := KudosService.GetKudos_ok U s user heap resp dynamo' ks hq hks
  have hlen := hks.length_eq
  refine ⟨herr, by simp [Slice.len, hptrs], ?_, ?_, ?_⟩
  · intro i hi
    have hi' : i < ks.length := hlen ▸ hi
    refine ⟨heap.cells.length + i, ks.get ⟨i, hi'⟩, ?_, ?_, hks.get hi hi'⟩
    · rw [hptrs]
      simp [List.getElem?_range', hi]
    · rw [hheap]
      simp only [Heap.get, List.get?_eq_getElem?]
      rw [List.getElem?_append_right (Nat.le_add_right _ _)]
      simp [hi']
  · rw [hptrs]
    exact List.nodup_range' _ _
  · intro p hp
    rw [hptrs] at hp
    simp [List.mem_range'] at hp
    omega

/-- C7 on a store that returns a good item, a broken one and a good one: the call
fails with the broken item's error and returns the nil slice, not the first record. -/
theorem GetKudos_error_iff_witness :
    ((NewKudosService brokenTable).GetKudos sdkUnmarshalMap "alice" ⟨[]⟩).err
        = some "invalid syntax"
      ∧ ((NewKudosService brokenTable).GetKudos sdkUnmarshalMap "alice" ⟨[]⟩).kudos = none
      ∧ ((NewKudosService unreachableTable).GetKudos sdkUnmarshalMap "alice" ⟨[]⟩).err
        = some "RequestError" :=
  ⟨by decide,
   ((GetKudos_error_iff sdkUnmarshalMap (NewKudosService brokenTable) "alice" ⟨[]⟩).2
      "invalid syntax" (by decide)).1,
   by decide⟩

/-- C10 on a store that returns two items for alice: two distinct pointers come back,
the first to the pull request record, the second to the issue record. -/
theorem GetKudos_all_items_witness :
    ((NewKudosService twoItemTable).GetKudos sdkUnmarshalMap "alice" ⟨[]⟩).err = none
      ∧ ((NewKudosService twoItemTable).GetKudos sdkUnmarshalMap "alice" ⟨[]⟩).kudos.len = 2
      ∧ ((NewKudosService twoItemTable).GetKudos sdkUnmarshalMap "alice" ⟨[]⟩).kudos.toList.Nodup
      ∧ ((NewKudosService twoItemTable).GetKudos sdkUnmarshalMap "alice" ⟨[]⟩).kudos.toList.map
          ((NewKudosService twoItemTable).GetKudos sdkUnmarshalMap "alice" ⟨[]⟩).heap.get
        = [some aliceKudo, some aliceIssueKudo] :=
  have h := GetKudos_all_items sdkUnmarshalMap (NewKudosService twoItemTable) "alice" ⟨[]⟩
    { Items := [aliceItem, aliceIssueItem] }
    { twoItemTable with requests := [.Query ((NewKudosService twoItemTable).queryInput "alice")] }
    (by decide)
    (by
      intro item hitem
      rcases List.mem_cons.mp hitem with rfl | hitem
      · exact ⟨aliceKudo, by decide⟩
      · rcases List.mem_cons.mp hitem with rfl | hitem
        · exact ⟨aliceIssueKudo, by decide⟩
        · cases hitem)
  ⟨h.1, h.2.1, h.2.2.2.1, by decide⟩

/-! ## `GetKudos` and `GetKudosForUser` on a user without items -/

/-- C6, as the code has it: when the store query succeeds and returns zero items,
`GetKudos` returns no error and the nil slice (of length 0), the variable `kudos`
never having been assigned; `GetKudosForUser` then sets the JSON content type and
writes the body `null`, with status 200 on a fresh response writer. -/
theorem GetKudos_no_items :
    (∀ (U : Item → Kudo → Except Error Kudo) (s : KudosService) (user : String) (heap : Heap)
        (dynamo' : DynamoDB),
        s.dynamo.Query (s.queryInput user) = (.ok { Items := [] }, dynamo') →
        (s.GetKudos U user heap).err = none
          ∧ (s.GetKudos U user heap).kudos = none
          ∧ (s.GetKudos U user heap).kudos.len = 0)
    ∧ (∀ (env : Env) (dynamo : DynamoDB) (heap : Heap) (w : http.ResponseWriter)
        (ps : List (String × String)) (dynamo' : DynamoDB),
        env.NewSessionWithOptions = .ok () →
        dynamo.Query ((NewKudosService dynamo).queryInput (httprouter.ByName ps "user"))
          = (.ok { Items := [] }, dynamo') →
        (GetKudosForUser env dynamo heap w ps).w
            = (w.HeaderSet "Content-Type" "application/json").Write "null"
          ∧ (GetKudosForUser env dynamo heap w ps).w.body = w.body ++ "null"
          ∧ (w.status = none →
              (GetKudosForUser env dynamo heap w ps).w.status = some http.StatusOK)) := by
  constructor
  · intro U s user heap dynamo' hq
    simp [KudosService.GetKudos, hq, KudosService.getKudosLoop, Slice.len, Slice.toList]
  · intro env dynamo heap w ps dynamo' hs hq
    have hq' : (NewKudosService dynamo).dynamo.Query
        ((NewKudosService dynamo).queryInput (httprouter.ByName ps "user"))
          = (.ok { Items := [] }, dynamo') := hq
    have hw : (GetKudosForUser env dynamo heap w ps).w
        = (w.HeaderSet "Content-Type" "application/json").Write "null" := by
      simp [GetKudosForUser, hs, KudosService.GetKudos, hq', KudosService.getKudosLoop,
        json.Marshal]
    refine ⟨hw, ?_, ?_⟩
    · rw [hw]
      simp [http.ResponseWriter.Write, http.ResponseWriter.WriteHeader,
        http.ResponseWriter.HeaderSet]
      cases w.status <;> rfl
    · intro hst
      rw [hw]
      simp [http.ResponseWriter.Write, http.ResponseWriter.WriteHeader,
        http.ResponseWriter.HeaderSet, hst]

/-- C6 on the empty table: no error, the nil slice, and the reply `null`. -/
theorem GetKudos_no_items_witness :
    ((NewKudosService emptyTable).GetKudos sdkUnmarshalMap "alice" ⟨[]⟩).err = none
      ∧ ((NewKudosService emptyTable).GetKudos sdkUnmarshalMap "alice" ⟨[]⟩).kudos = none
      ∧ (GetKudosForUser (envWith (.ok "payload") (.ok (.other "PushEvent"))) emptyTable ⟨[]⟩ {}
          [("user", "alice")]).w
        = { header := [("Content-Type", "application/json")], status := some 200,
            body := "null" } :=
  have h1 := GetKudos_no_items.1 sdkUnmarshalMap (NewKudosService emptyTable) "alice" ⟨[]⟩
    { emptyTable with requests := [.Query ((NewKudosService emptyTable).queryInput "alice")] }
    (by decide)
  have h2 := GetKudos_no_items.2 (envWith (.ok "payload") (.ok (.other "PushEvent")))
    emptyTable ⟨[]⟩ {} [("user", "alice")]
    { emptyTable with requests := [.Query ((NewKudosService emptyTable).queryInput "alice")] }
    rfl (by decide)
  ⟨h1.1, h1.2.1, h2.1⟩

/-- C6 as stated fails: for alice, who has no items in the (reachable) empty table, the
query succeeds with zero items, `GetKudos` returns the nil slice rather than a non-nil
empty one, and `GetKudosForUser` answers with the body `null`, not `[]`. -/
theorem GetKudosForUser_no_items_null :
    (emptyTable.Query ((NewKudosService emptyTable).queryInput "alice")).1 = .ok { Items := [] }
      ∧ ((NewKudosService emptyTable).GetKudos sdkUnmarshalMap "alice" ⟨[]⟩).err = none
      ∧ ((NewKudosService emptyTable).GetKudos sdkUnmarshalMap "alice" ⟨[]⟩).kudos ≠ some []
      ∧ (GetKudosForUser (envWith (.ok "payload") (.ok (.other "PushEvent"))) emptyTable ⟨[]⟩ {}
          [("user", "alice")]).w.body = "null"
      ∧ (GetKudosForUser (envWith (.ok "payload") (.ok (.other "PushEvent"))) emptyTable ⟨[]⟩ {}
          [("user", "alice")]).w.body ≠ "[]" := by
  decide

/-! ## The round trip through the store -/

theorem int64_range (i : Int) : -(2 ^ 63) ≤ int64 i ∧ int64 i < 2 ^ 63 := by
  unfold int64 Int.bmod
  simp only [Nat.cast_pow, Nat.cast_ofNat]
  split_ifs <;> omega

theorem int64_eq_self_iff (i : Int) : int64 i = i ↔ -(2 ^ 63) ≤ i ∧ i < 2 ^ 63 := by
  constructor
  · intro h
    rw [← h]
    exact int64_range i
  · rintro ⟨hlo, hhi⟩
    unfold int64 Int.bmod
    simp only [Nat.cast_pow, Nat.cast_ofNat]
    split_ifs <;> omega

theorem dynamodbattribute.decodeString_encodeString (s cur : String) :
    dynamodbattribute.decodeString (some (dynamodbattribute.encodeString s)) cur = .ok s := by
  unfold dynamodbattribute.encodeString
  split
  · next h => simp [dynamodbattribute.decodeString, h]
  · simp [dynamodbattribute.decodeString]

theorem dynamodbattribute.decodeUnixTime_encodeUnixTime
    (parseTime : String → Except Error time.Time) (t cur : time.Time) :
    dynamodbattribute.decodeUnixTime parseTime (some (dynamodbattribute.encodeUnixTime t)) cur
      = .ok (time.Unix t.Unix) := by
  have h := int64_range t.sec
  simp [dynamodbattribute.decodeUnixTime, dynamodbattribute.encodeUnixTime, time.Time.Unix,
    strconv.ParseInt_FormatInt _ h.1 h.2]

/-- Unmarshalling the attribute map a record was marshalled into gives the record with
its `Time` cut to whole seconds. -/
theorem dynamodbattribute.UnmarshalMap_MarshalMap
    (parseTime : String → Except Error time.Time) (r out : Kudo) :
    dynamodbattribute.UnmarshalMap parseTime
        [("User", dynamodbattribute.encodeString r.User),
         ("Time", dynamodbattribute.encodeUnixTime r.Time),
         ("ContributionType", dynamodbattribute.encodeString r.ContributionType),
         ("ContributionURL", dynamodbattribute.encodeString r.ContributionURL),
         ("ContributionName", dynamodbattribute.encodeString r.ContributionName)] out
      = .ok { r with Time := time.Unix r.Time.Unix } := by
  simp [dynamodbattribute.UnmarshalMap, List.lookup,
    dynamodbattribute.decodeString_encodeString,
    dynamodbattribute.decodeUnixTime_encodeUnixTime]

theorem dynamodb.hashKey_marshalled (r : Kudo) (rest : Item) (u : String)
    (h : dynamodb.hashKey (("User", dynamodbattribute.encodeString r.User) :: rest) = some u) :
    r.User = u ∧ u ≠ "" := by
  unfold dynamodb.hashKey dynamodbattribute.encodeString at h
  by_cases hu : r.User = ""
  · simp [List.lookup, hu] at h
  · simp [List.lookup, hu] at h
    exact ⟨h, h ▸ hu⟩

/-- What a successful `PutItem` means: the store was reachable, the table is the
store's, the item has a partition key, and it now follows the items stored before. -/
theorem dynamodb.PutItem_ok (db db' : DynamoDB) (input : dynamodb.PutItemInput)
    (h : db.PutItem input = (.ok (), db')) :
    db.outage = none ∧ input.TableName = db.tableName
      ∧ (∃ u, dynamodb.hashKey input.Item = some u)
      ∧ db' = { db with
          requests := db.requests ++ [dynamodb.Request.PutItem input]
          items := db.items ++ [input.Item] } := by
  unfold dynamodb.DynamoDB.PutItem at h
  cases ho : db.outage with
  | some e => simp [ho] at h
  | none =>
    by_cases ht : input.TableName = db.tableName
    · cases hk : dynamodb.hashKey input.Item with
      | none => simp [ho, ht, hk] at h
      | some u =>
        simp only [ho, ht, hk, ne_eq, not_true_eq_false, if_false] at h
        exact ⟨rfl, ht, ⟨u, rfl⟩, (Prod.mk.inj h).2.symm⟩
    · simp [ho, ht] at h

/-- C5, as the code has it: when `CreateKudo(r)` succeeds, a following `GetKudos(r.User)`
returns no error exactly when every item stored earlier under `r.User` deserializes,
and then its slice holds a pointer to `r` with its `Time` cut to whole seconds,
`time.Unix(r.Time.Unix(), 0)`, all other fields unchanged: unmarshalling the attribute
map `r` is marshalled into yields that record.  It is `r` itself exactly when `r.Time`
has no sub-second part (and its seconds fit an `int64`). -/
theorem CreateKudo_GetKudos_roundtrip (parseTime : String → Except Error time.Time)
    (s : KudosService) (r : Kudo) (heap : Heap)
    (hc : (s.CreateKudo dynamodbattribute.MarshalMap r).1 = none) :
    (∃ item, dynamodbattribute.MarshalMap r = .ok item
        ∧ dynamodbattribute.UnmarshalMap parseTime item Kudo.zero
          = .ok { r with Time := time.Unix r.Time.Unix })
      ∧ (((s.CreateKudo dynamodbattribute.MarshalMap r).2.GetKudos
            (dynamodbattribute.UnmarshalMap parseTime) r.User heap).err = none
          ↔ ∀ it ∈ s.dynamo.items, dynamodb.hashKey it = some r.User →
              ∃ k, dynamodbattribute.UnmarshalMap parseTime it Kudo.zero = .ok k)
      ∧ (((s.CreateKudo dynamodbattribute.MarshalMap r).2.GetKudos
            (dynamodbattribute.UnmarshalMap parseTime) r.User heap).err = none →
          ∃ p, p ∈ ((s.CreateKudo dynamodbattribute.MarshalMap r).2.GetKudos
                (dynamodbattribute.UnmarshalMap parseTime) r.User heap).kudos.toList
            ∧ ((s.CreateKudo dynamodbattribute.MarshalMap r).2.GetKudos
                (dynamodbattribute.UnmarshalMap parseTime) r.User heap).heap.get p
              = some { r with Time := time.Unix r.Time.Unix })
      ∧ ({ r with Time := time.Unix r.Time.Unix } = r
          ↔ r.Time.nsec = 0 ∧ -(2 ^ 63) ≤ r.Time.sec ∧ r.Time.sec < 2 ^ 63) := by
  have hround := dynamodbattribute.UnmarshalMap_MarshalMap parseTime r Kudo.zero
  refine ⟨⟨_, rfl, hround⟩, ?_⟩
  -- the store after the write
  rcases hput : s.dynamo.PutItem
      { Item := [("User", dynamodbattribute.encodeString r.User),
                 ("Time", dynamodbattribute.encodeUnixTime r.Time),
                 ("ContributionType", dynamodbattribute.encodeString r.ContributionType),
                 ("ContributionURL", dynamodbattribute.encodeString r.ContributionURL),
                 ("ContributionName", dynamodbattribute.encodeString r.ContributionName)],
        TableName := s.tableName } with ⟨res, db'⟩
  have hcreate : s.CreateKudo dynamodbattribute.MarshalMap r
      = (match res with | .error err => some err | .ok _ => none, { s with dynamo := db' }) := by
    simp only [KudosService.CreateKudo, dynamodbattribute.MarshalMap, hput]
    cases res <;> rfl
  cases res with
  | error err => simp [hcreate] at hc
  | ok _ =>
    obtain ⟨hout, htab, ⟨u, hkey⟩, hdb⟩ := dynamodb.PutItem_ok _ _ _ hput
    obtain ⟨hu, hne⟩ := dynamodb.hashKey_marshalled r _ u hkey
    subst hu
    have hkey' : dynamodb.hashKey
        [("User", dynamodbattribute.encodeString r.User),
         ("Time", dynamodbattribute.encodeUnixTime r.Time),
         ("ContributionType", dynamodbattribute.encodeString r.ContributionType),
         ("ContributionURL", dynamodbattribute.encodeString r.ContributionURL),
         ("ContributionName", dynamodbattribute.encodeString r.ContributionName)]
        = some r.User := hkey
    have htab' : s.tableName = s.dynamo.tableName := htab
    have hq : ({ s with dynamo := db' } : KudosService).dynamo.Query
        (({ s with dynamo := db' } : KudosService).queryInput r.User)
        = (.ok { Items :=
              s.dynamo.items.filter (fun it => decide (dynamodb.hashKey it = some r.User))
              ++ [[("User", dynamodbattribute.encodeString r.User),
                   ("Time", dynamodbattribute.encodeUnixTime r.Time),
                   ("ContributionType", dynamodbattribute.encodeString r.ContributionType),
                   ("ContributionURL", dynamodbattribute.encodeString r.ContributionURL),
                   ("ContributionName", dynamodbattribute.encodeString r.ContributionName)]] },
            { db' with requests := db'.requests
                ++ [.Query (({ s with dynamo := db' } : KudosService).queryInput r.User)] }) := by
      simp only [dynamodb.DynamoDB.Query, KudosService.queryInput, hdb, hout,
        dynamodb.hashKeyCondition, htab']
      simp [hne, List.filter_append, List.filter_cons, hkey']
    have hiff := KudosService.GetKudos_err_none_iff (dynamodbattribute.UnmarshalMap parseTime)
      { s with dynamo := db' } r.User heap _ _ hq
    have hall : (∀ item ∈ s.dynamo.items.filter
            (fun it => decide (dynamodb.hashKey it = some r.User))
            ++ [[("User", dynamodbattribute.encodeString r.User),
                 ("Time", dynamodbattribute.encodeUnixTime r.Time),
                 ("ContributionType", dynamodbattribute.encodeString r.ContributionType),
                 ("ContributionURL", dynamodbattribute.encodeString r.ContributionURL),
                 ("ContributionName", dynamodbattribute.encodeString r.ContributionName)]],
          ∃ k, dynamodbattribute.UnmarshalMap parseTime item Kudo.zero = .ok k)
        ↔ ∀ it ∈ s.dynamo.items, dynamodb.hashKey it = some r.User →
            ∃ k, dynamodbattribute.UnmarshalMap parseTime it Kudo.zero = .ok k := by
      constructor
      · intro h it hit hk
        exact h it (List.mem_append_left _ (List.mem_filter.mpr ⟨hit, by simpa using hk⟩))
      · intro h item hitem
        rcases List.mem_append.mp hitem with hold | hnew
        · obtain ⟨hit, hk⟩ := List.mem_filter.mp hold
          exact h item hit (by simpa using hk)
        · rw [List.mem_singleton.mp hnew]
          exact ⟨_, hround⟩
    rw [hcreate]
    refine ⟨hiff.trans hall, ?_, ?_⟩
    · intro herr
      obtain ⟨ks, hks⟩ := KudosService.forall₂_of_all_ok _ _ (hiff.mp herr)
      have hok := KudosService.GetKudos_ok (dynamodbattribute.UnmarshalMap parseTime)
        { s with dynamo := db' } r.User heap _ _ ks hq hks
      have hlen := hks.length_eq
      simp only [List.length_append, List.length_singleton] at hlen
      have hi : (s.dynamo.items.filter
          (fun it => decide (dynamodb.hashKey it = some r.User))).length < ks.length := by omega
      have hget := hks.get (by simp) hi
      simp only [List.get_eq_getElem, List.getElem_concat_length] at hget
      rw [hround] at hget
      have hk : ks[(s.dynamo.items.filter
          (fun it => decide (dynamodb.hashKey it = some r.User))).length]
            = { r with Time := time.Unix r.Time.Unix } := (Except.ok.inj hget).symm
      refine ⟨heap.cells.length + (s.dynamo.items.filter
          (fun it => decide (dynamodb.hashKey it = some r.User))).length, ?_, ?_⟩
      · rw [hok.2.1]
        simp [List.mem_range']
      · rw [hok.2.2.1]
        simp only [Heap.get, List.get?_eq_getElem?]
        rw [List.getElem?_append_right (Nat.le_add_right _ _)]
        simp [hi, hk]
    · constructor
      · intro h
        have ht : time.Unix r.Time.Unix = r.Time := congrArg Kudo.Time h
        have hn : (time.Unix r.Time.Unix).nsec = r.Time.nsec := congrArg time.Time.nsec ht
        have hs : (time.Unix r.Time.Unix).sec = r.Time.sec := congrArg time.Time.sec ht
        simp only [time.Unix, time.Time.Unix] at hn hs
        exact ⟨hn.symm, (int64_eq_self_iff _).mp hs⟩
      · rintro ⟨hn, hlo, hhi⟩
        have hs := (int64_eq_self_iff r.Time.sec).mpr ⟨hlo, hhi⟩
        obtain ⟨user, ⟨sec, nsec⟩, ty, url, name⟩ := r
        simp only [time.Unix, time.Time.Unix] at hn hs ⊢
        simp [hs, hn]

/-- C5 on alice's issue record, written to a table that already holds her pull request:
the listing for alice succeeds and holds a pointer to the very record, its time being a
whole second. -/
theorem CreateKudo_GetKudos_roundtrip_witness :
    ((NewKudosService aliceTable).CreateKudo dynamodbattribute.MarshalMap aliceIssueKudo).1 = none
      ∧ (((NewKudosService aliceTable).CreateKudo dynamodbattribute.MarshalMap
            aliceIssueKudo).2.GetKudos sdkUnmarshalMap "alice" ⟨[]⟩).err = none
      ∧ (∃ p, p ∈ (((NewKudosService aliceTable).CreateKudo dynamodbattribute.MarshalMap
                aliceIssueKudo).2.GetKudos sdkUnmarshalMap "alice" ⟨[]⟩).kudos.toList
          ∧ (((NewKudosService aliceTable).CreateKudo dynamodbattribute.MarshalMap
                aliceIssueKudo).2.GetKudos sdkUnmarshalMap "alice" ⟨[]⟩).heap.get p
            = some aliceIssueKudo) :=
  have h := CreateKudo_GetKudos_roundtrip (fun _ => .error "parsing time")
    (NewKudosService aliceTable) aliceIssueKudo ⟨[]⟩ (by decide)
  ⟨by decide, by decide, h.2.2.1 (by decide)⟩

/-- C5 as stated fails, in two ways.  A record whose time lies half a second past a
whole second is written and listed without error, but what comes back is not equal to
it: the attribute map holds `1700000000` and unmarshals to the whole second.  And a
record written to a table that holds an undecodable item under the same user is
written successfully, yet the following listing fails with that item's error. -/
theorem CreateKudo_GetKudos_drops_nanoseconds :
    (((NewKudosService emptyTable).CreateKudo dynamodbattribute.MarshalMap halfSecondKudo).1 = none
      ∧ (((NewKudosService emptyTable).CreateKudo dynamodbattribute.MarshalMap
            halfSecondKudo).2.GetKudos sdkUnmarshalMap halfSecondKudo.User ⟨[]⟩).err = none
      ∧ (∀ p ∈ (((NewKudosService emptyTable).CreateKudo dynamodbattribute.MarshalMap
              halfSecondKudo).2.GetKudos sdkUnmarshalMap halfSecondKudo.User ⟨[]⟩).kudos.toList,
          (((NewKudosService emptyTable).CreateKudo dynamodbattribute.MarshalMap
              halfSecondKudo).2.GetKudos sdkUnmarshalMap halfSecondKudo.User ⟨[]⟩).heap.get p
            ≠ some halfSecondKudo)
      ∧ dynamodbattribute.MarshalMap halfSecondKudo = .ok aliceItem
      ∧ sdkUnmarshalMap aliceItem Kudo.zero = .ok aliceKudo
      ∧ aliceKudo ≠ halfSecondKudo)
    ∧ (((NewKudosService brokenTable).CreateKudo dynamodbattribute.MarshalMap aliceKudo).1 = none
      ∧ (((NewKudosService brokenTable).CreateKudo dynamodbattribute.MarshalMap
            aliceKudo).2.GetKudos sdkUnmarshalMap aliceKudo.User ⟨[]⟩).err
          = some "invalid syntax"
      ∧ (((NewKudosService brokenTable).CreateKudo dynamodbattribute.MarshalMap
            aliceKudo).2.GetKudos sdkUnmarshalMap aliceKudo.User ⟨[]⟩).kudos = none) := by
  decide

end Kudos
